import Mathlib

/-!
# The native-activity sample `jni/main.cpp`

A shallow embedding of the engine state, the lifecycle-command and input callbacks, the
display set-up / tear-down / draw routines, the one-time start-up sequence and the main loop
of `android_main`, followed by the properties established about them.

Conventions of the embedding.

* Platform calls (EGL, GLES, sensor queue, log) do not return values into the model except
  where the source reads them; the values the source does read are supplied by the caller
  (`EGLResult`, `Polled`, `StartEnv`).  Every routine returns, next to the new engine state,
  the list of platform calls it made, in order (`List Ev`), each routine prefixing the list
  with a marker of its own entry.
* `float` is IEEE-754 binary32 with round-to-nearest-even (`F32`).
* Pointers and EGL handles are natural numbers, `0` being the null pointer.
-/

namespace NativeActivity

/-! ## binary32 arithmetic -/

/-- Finite binary32 values.  Every finite binary32 number is an integer multiple of the least
subnormal `2^-149`; `units` is that integer, so the value denoted is `units * 2^-149`.
(Infinities and NaN are outside the model; the two zeros are identified.) -/
structure F32 where
  units : Int
deriving DecidableEq, Repr

namespace F32

/-- Number of low bits that have to be dropped from `n` to leave at most 24 significant bits:
the number of halvings needed to bring `n` below `2^24`.  The first argument bounds the
recursion; `n` itself always suffices. -/
def shiftAux : Nat → Nat → Nat
  | 0, _ => 0
  | fuel + 1, n => if n < 2 ^ 24 then 0 else shiftAux fuel (n / 2) + 1

/-- Round a magnitude (in units of `2^-149`) to the nearest one with a 24-bit significand,
ties to the even significand. -/
def roundNat (n : Nat) : Nat :=
  let s := shiftAux n n
  let q := n / 2 ^ s
  let r := n % 2 ^ s
  if 2 * r < 2 ^ s then q * 2 ^ s
  else if 2 ^ s < 2 * r then (q + 1) * 2 ^ s
  else if q % 2 = 0 then q * 2 ^ s
  else (q + 1) * 2 ^ s

/-- Round an exact multiple of `2^-149` to binary32 (round-to-nearest-even, sign-symmetric). -/
def round (z : Int) : F32 :=
  match z with
  | Int.ofNat n => ⟨Int.ofNat (roundNat n)⟩
  | Int.negSucc n => ⟨-Int.ofNat (roundNat (n + 1))⟩

/-- The binary32 sum: the exact sum, rounded once. -/
def add (a b : F32) : F32 := round (a.units + b.units)

/-- The value `0.0f`. -/
def zero : F32 := ⟨0⟩

/-- The value `1.0f` (the `int` constant `1` converted for the comparison `angle > 1`). -/
def one : F32 := ⟨Int.ofNat (2 ^ 149)⟩

/-- The literal `.01f`, bit pattern `0x3C23D70A`: significand `10737418`, exponent `-30`. -/
def c01 : F32 := ⟨Int.ofNat (10737418 * 2 ^ 119)⟩

/-- The rational number a binary32 value denotes. -/
def toRat (a : F32) : ℚ := (a.units : ℚ) / 2 ^ 149

end F32

/-! ## Handles and constants of the platform headers -/

/-- Pointers and EGL handles; `0` is the null pointer. -/
abbrev Handle := Nat

/-- The null pointer. -/
def NULL : Handle := 0

/-- From `EGL/egl.h`: `((EGLDisplay)0)`. -/
def EGL_NO_DISPLAY : Handle := 0

/-- From `EGL/egl.h`: `((EGLSurface)0)`. -/
def EGL_NO_SURFACE : Handle := 0

/-- From `EGL/egl.h`: `((EGLContext)0)`. -/
def EGL_NO_CONTEXT : Handle := 0

/-- From `android_native_app_glue.h` (enumerator 1). -/
def APP_CMD_INIT_WINDOW : Int := 1

/-- From `android_native_app_glue.h` (enumerator 2). -/
def APP_CMD_TERM_WINDOW : Int := 2

/-- From `android_native_app_glue.h` (enumerator 6). -/
def APP_CMD_GAINED_FOCUS : Int := 6

/-- From `android_native_app_glue.h` (enumerator 7). -/
def APP_CMD_LOST_FOCUS : Int := 7

/-- From `android_native_app_glue.h` (enumerator 12). -/
def APP_CMD_SAVE_STATE : Int := 12

/-- From `android/input.h`. -/
def AINPUT_EVENT_TYPE_MOTION : Int := 2

/-- From `android_native_app_glue.h`: the looper identifier of application-defined sources. -/
def LOOPER_ID_USER : Int := 3

/-! ## Data model -/

/-- The record `struct saved_state`: a `float` and two `int32_t`. -/
structure saved_state where
  angle : F32
  x : Int
  y : Int
deriving DecidableEq, Repr

/-- The value of `sizeof(struct saved_state)`: three 4-byte members, no padding. -/
def sizeof_saved_state : Nat := 4 + 4 + 4

/-- The fields of the glue's `struct android_app` that `main.cpp` reads or writes. -/
structure android_app where
  window : Handle
  savedState : Option saved_state
  savedStateSize : Nat
  destroyRequested : Int
deriving DecidableEq, Repr

/-- The record `struct engine`.  The pointer `app` is flattened into the record. -/
structure engine where
  app : android_app
  sensorManager : Handle
  accelerometerSensor : Handle
  sensorEventQueue : Handle
  animating : Int
  display : Handle
  surface : Handle
  context : Handle
  width : Int
  height : Int
  state : saved_state
deriving DecidableEq, Repr

/-- Names of the routines of `main.cpp` whose entry is recorded in the call list. -/
inductive Fn
  | engine_init_display
  | engine_draw_frame
  | engine_term_display
deriving DecidableEq, Repr

/-- Platform calls (and routine-entry markers) in the order the program makes them. -/
inductive Ev
  | enter (f : Fn)
  | eglGetDisplay
  | eglInit
  | eglChooseConfig
  | eglGetConfigAttrib
  | setBuffersGeometry (window : Handle)
  | eglCreateWindowSurface (display window : Handle)
  | eglCreateContext (display : Handle)
  | eglMakeCurrent (display draw read context : Handle)
  | eglQuerySurface (display surface : Handle)
  | glSetup
  | logW_unableToMakeCurrent
  | glClearColor (x width : Int) (angle : F32) (y height : Int)
  | glClear
  | eglSwapBuffers (display surface : Handle)
  | eglDestroyContext (display context : Handle)
  | eglDestroySurface (display surface : Handle)
  | eglTerminate (display : Handle)
  | enableSensor (queue sensor : Handle)
  | setEventRate (queue sensor : Handle) (usec : Int)
  | disableSensor (queue sensor : Handle)
  | logI_accelerometer
deriving DecidableEq, Repr

/-- What EGL hands back to one run of `engine_init_display`: the results of `eglGetDisplay`,
`eglCreateWindowSurface`, `eglCreateContext`, whether `eglMakeCurrent` returned something
other than `EGL_FALSE`, and the two `eglQuerySurface` answers. -/
structure EGLResult where
  display : Handle
  surface : Handle
  context : Handle
  makeCurrent : Bool
  w : Int
  h : Int
deriving DecidableEq, Repr

/-- An input event as `engine_handle_input` sees it: its type, and the pointer coordinates
`AMotionEvent_getX(event, 0)`, `AMotionEvent_getY(event, 0)` after conversion to `int32_t`. -/
structure AInputEvent where
  type : Int
  x : Int
  y : Int
deriving DecidableEq, Repr

/-! ## Display routines -/

/-- The routine `engine_init_display` (lines 74-137); returns the `int` result first. -/
def engine_init_display (g : EGLResult) (e : engine) : Int × engine × List Ev :=
  let pre : List Ev :=
    [Ev.enter Fn.engine_init_display, Ev.eglGetDisplay, Ev.eglInit, Ev.eglChooseConfig,
     Ev.eglGetConfigAttrib, Ev.setBuffersGeometry e.app.window,
     Ev.eglCreateWindowSurface g.display e.app.window, Ev.eglCreateContext g.display,
     Ev.eglMakeCurrent g.display g.surface g.surface g.context]
  if g.makeCurrent = false then
    (-1, e, pre ++ [Ev.logW_unableToMakeCurrent])
  else
    (0,
     { e with
       display := g.display
       context := g.context
       surface := g.surface
       width := g.w
       height := g.h
       state := { e.state with angle := F32.zero } },
     pre ++ [Ev.eglQuerySurface g.display g.surface, Ev.eglQuerySurface g.display g.surface,
             Ev.glSetup])

/-- The routine `engine_draw_frame` (lines 142-154).  The colour components
`((float)x)/width` and `((float)y)/height` are recorded by their operands. -/
def engine_draw_frame (e : engine) : engine × List Ev :=
  if e.display = NULL then
    (e, [Ev.enter Fn.engine_draw_frame])
  else
    (e, [Ev.enter Fn.engine_draw_frame,
         Ev.glClearColor e.state.x e.width e.state.angle e.state.y e.height,
         Ev.glClear,
         Ev.eglSwapBuffers e.display e.surface])

/-- The routine `engine_term_display` (lines 159-174). -/
def engine_term_display (e : engine) : engine × List Ev :=
  let calls : List Ev :=
    if e.display ≠ EGL_NO_DISPLAY then
      [Ev.eglMakeCurrent e.display EGL_NO_SURFACE EGL_NO_SURFACE EGL_NO_CONTEXT]
        ++ (if e.context ≠ EGL_NO_CONTEXT then [Ev.eglDestroyContext e.display e.context] else [])
        ++ (if e.surface ≠ EGL_NO_SURFACE then [Ev.eglDestroySurface e.display e.surface] else [])
        ++ [Ev.eglTerminate e.display]
    else []
  ({ e with
     animating := 0
     display := EGL_NO_DISPLAY
     context := EGL_NO_CONTEXT
     surface := EGL_NO_SURFACE },
   Ev.enter Fn.engine_term_display :: calls)

/-! ## Callbacks -/

/-- The callback `engine_handle_input` (lines 179-188); returns the `int32_t` result first. -/
def engine_handle_input (e : engine) (event : AInputEvent) : Int × engine :=
  if event.type = AINPUT_EVENT_TYPE_MOTION then
    (1, { e with animating := 1, state := { e.state with x := event.x, y := event.y } })
  else
    (0, e)

/-- The sensor event period passed to `ASensorEventQueue_setEventRate`: the C expression
`(1000L/60)*1000`, with C integer division. -/
def eventRateUsec : Int := (1000 / 60) * 1000

/-- The callback `engine_handle_cmd` (lines 193-235).  `g` is what EGL answers should the
command reach `engine_init_display`.  (`malloc` is taken to succeed.) -/
def engine_handle_cmd (g : EGLResult) (e : engine) (cmd : Int) : engine × List Ev :=
  if cmd = APP_CMD_SAVE_STATE then
    ({ e with app := { e.app with savedState := some e.state,
                                  savedStateSize := sizeof_saved_state } }, [])
  else if cmd = APP_CMD_INIT_WINDOW then
    if e.app.window ≠ NULL then
      let r := engine_init_display g e
      let d := engine_draw_frame r.2.1
      (d.1, r.2.2 ++ d.2)
    else (e, [])
  else if cmd = APP_CMD_TERM_WINDOW then
    engine_term_display e
  else if cmd = APP_CMD_GAINED_FOCUS then
    if e.accelerometerSensor ≠ NULL then
      (e, [Ev.enableSensor e.sensorEventQueue e.accelerometerSensor,
           Ev.setEventRate e.sensorEventQueue e.accelerometerSensor eventRateUsec])
    else (e, [])
  else if cmd = APP_CMD_LOST_FOCUS then
    let t : List Ev :=
      if e.accelerometerSensor ≠ NULL then
        [Ev.disableSensor e.sensorEventQueue e.accelerometerSensor]
      else []
    let d := engine_draw_frame { e with animating := 0 }
    (d.1, t ++ d.2)
  else (e, [])

/-! ## The main loop of `android_main` -/

/-- The assignment `engine.state.angle += .01f` followed by the reset
`if (engine.state.angle > 1) engine.state.angle = 0` (lines 545-548). -/
def angle_advance (a : F32) : F32 :=
  let a1 := F32.add a F32.c01
  if F32.one.units < a1.units then F32.zero else a1

/-- The block `if (engine.animating) ...` that ends an iteration of the outer loop
(lines 543-553). -/
def animate (e : engine) : engine × List Ev :=
  if e.animating ≠ 0 then
    engine_draw_frame { e with state := { e.state with angle := angle_advance e.state.angle } }
  else (e, [])

/-- One callback invocation made by a poll source.  The glue (not part of `main.cpp`) stores
the current window pointer in `app->window` before it delivers a command. -/
inductive Dispatch
  | cmd (c : Int) (window : Handle) (g : EGLResult)
  | input (event : AInputEvent)
deriving DecidableEq, Repr

/-- The command code a dispatch delivers, if it delivers a command. -/
def Dispatch.cmdCode : Dispatch → Option Int
  | Dispatch.cmd c _ _ => some c
  | Dispatch.input _ => none

/-- Deliver one callback. -/
def dispatch (e : engine) : Dispatch → engine × List Ev
  | Dispatch.cmd c window g =>
      engine_handle_cmd g { e with app := { e.app with window := window } } c
  | Dispatch.input event => ((engine_handle_input e event).2, [])

/-- Deliver callbacks in order, concatenating the call lists. -/
def dispatchAll (e : engine) : List Dispatch → engine × List Ev
  | [] => (e, [])
  | d :: ds =>
      let r := dispatch e d
      let rs := dispatchAll r.1 ds
      (rs.1, r.2 ++ rs.2)

/-- One successful return of `ALooper_pollAll` (`ident >= 0`): the identifier, the callbacks
`source->process` makes (`none` when `source == NULL`), the number of samples waiting in the
sensor queue, and the value of `state->destroyRequested` once the source has been processed. -/
structure Polled where
  ident : Int
  source : Option (List Dispatch)
  samples : Nat
  destroyRequested : Int
deriving DecidableEq, Repr

/-- One return of `ALooper_pollAll`: negative (nothing to process), or an event. -/
inductive Poll
  | none
  | event (p : Polled)
deriving DecidableEq, Repr

/-- The body of the inner `while` up to, not including, the exit check (lines 518-534). -/
def process_event (e : engine) (p : Polled) : engine × List Ev :=
  let r : engine × List Ev :=
    match p.source with
    | some ds => dispatchAll e ds
    | Option.none => (e, [])
  let t : List Ev :=
    if p.ident = LOOPER_ID_USER then
      if r.1.accelerometerSensor ≠ NULL then List.replicate p.samples Ev.logI_accelerometer
      else []
    else []
  ({ r.1 with app := { r.1.app with destroyRequested := p.destroyRequested } }, r.2 ++ t)

/-- The state of a run of the main loop: the engine, the calls made so far, and whether
`android_main` has returned. -/
structure Run where
  engine : engine
  trace : List Ev
  returned : Bool
deriving DecidableEq, Repr

/-- The loop `while (1)` of `android_main` (lines 506-554) run against the successive returns
of `ALooper_pollAll`.  When the list is used up the loop is waiting in `ALooper_pollAll`
(`returned = false`). -/
def main_loop : engine → List Poll → Run
  | e, [] => ⟨e, [], false⟩
  | e, Poll.none :: rest =>
      let a := animate e
      let r := main_loop a.1 rest
      ⟨r.engine, a.2 ++ r.trace, r.returned⟩
  | e, Poll.event p :: rest =>
      let d := process_event e p
      if d.1.app.destroyRequested ≠ 0 then
        let t := engine_term_display d.1
        ⟨t.1, d.2 ++ t.2, true⟩
      else
        let r := main_loop d.1 rest
        ⟨r.engine, d.2 ++ r.trace, r.returned⟩

/-- The engine after `memset(&engine, 0, sizeof(engine))`, `engine.app = state` and the sensor
set-up of lines 493-497. -/
def engine_boot (state : android_app) (manager sensor queue : Handle) : engine :=
  { app := state
    sensorManager := manager
    accelerometerSensor := sensor
    sensorEventQueue := queue
    animating := 0
    display := 0
    surface := 0
    context := 0
    width := 0
    height := 0
    state := { angle := F32.zero, x := 0, y := 0 } }

/-- The restore of lines 499-502: `if (state->savedState != NULL) engine.state = *savedState`. -/
def engine_restore (e : engine) : engine :=
  match e.app.savedState with
  | some s => { e with state := s }
  | Option.none => e

/-! ## The one-time start-up sequence of `android_main` -/

/-- The places of the start-up sequence (lines 270-490) where a platform call can fail: an
expansion of `EXCEPTION_RETURN(myNewEnv)`, named by its source line, which follows the JNI
call(s) it guards; and the two `fopen` calls. -/
inductive StartStep
  | exceptionReturn (line : Nat)
  | fopenWrite
  | fopenRead
deriving DecidableEq, Repr

/-- The start-up sequence in source order. -/
def startup_steps : List StartStep :=
  [StartStep.exceptionReturn 272, StartStep.exceptionReturn 277, StartStep.exceptionReturn 282,
   StartStep.exceptionReturn 287, StartStep.exceptionReturn 292, StartStep.exceptionReturn 304,
   StartStep.exceptionReturn 322, StartStep.exceptionReturn 327, StartStep.exceptionReturn 332,
   StartStep.exceptionReturn 337, StartStep.exceptionReturn 342, StartStep.exceptionReturn 346,
   StartStep.exceptionReturn 354, StartStep.exceptionReturn 359, StartStep.exceptionReturn 364,
   StartStep.exceptionReturn 369, StartStep.exceptionReturn 374, StartStep.exceptionReturn 379,
   StartStep.exceptionReturn 383, StartStep.exceptionReturn 402, StartStep.exceptionReturn 407,
   StartStep.exceptionReturn 412, StartStep.exceptionReturn 417,
   StartStep.fopenWrite, StartStep.fopenRead,
   StartStep.exceptionReturn 472, StartStep.exceptionReturn 477, StartStep.exceptionReturn 482,
   StartStep.exceptionReturn 488]

/-- What the platform answers during start-up: whether `env->ExceptionOccurred()` is non-null
at the `EXCEPTION_RETURN` of a given source line, whether each `fopen` returns a non-null
stream, and the sensor handles obtained at lines 493-497. -/
structure StartEnv where
  exceptionPending : Nat → Bool
  fopenWriteOk : Bool
  fopenReadOk : Bool
  sensorManager : Handle
  accelerometerSensor : Handle
  sensorEventQueue : Handle

/-- What the start-up sequence reports. -/
inductive StartLog
  | exceptionDescribeAndClear (line : Nat)
  | wroteToExternalStorage
  | failedToOpenForWrite
  | readFromExternalStorage
  | failedToOpenForRead
deriving DecidableEq, Repr

/-- Run start-up steps.  The boolean tells whether the end of the sequence was reached;
`false` is the `return;` of `EXCEPTION_RETURN`, which leaves `android_main`. -/
def run_startup (env : StartEnv) : List StartStep → Bool × List StartLog
  | [] => (true, [])
  | StartStep.exceptionReturn line :: rest =>
      if env.exceptionPending line then (false, [StartLog.exceptionDescribeAndClear line])
      else run_startup env rest
  | StartStep.fopenWrite :: rest =>
      let r := run_startup env rest
      (r.1, (if env.fopenWriteOk then StartLog.wroteToExternalStorage
             else StartLog.failedToOpenForWrite) :: r.2)
  | StartStep.fopenRead :: rest =>
      let r := run_startup env rest
      (r.1, (if env.fopenReadOk then StartLog.readFromExternalStorage
             else StartLog.failedToOpenForRead) :: r.2)

/-- How a run of `android_main` stands once the given poll results are used up. -/
inductive Outcome
  | returnedBeforeLoop (log : List StartLog)
  | enteredLoop (log : List StartLog) (run : Run)
deriving DecidableEq, Repr

/-- The function `android_main` (lines 247-555). -/
def android_main (env : StartEnv) (state : android_app) (polls : List Poll) : Outcome :=
  let s := run_startup env startup_steps
  if s.1 then
    let e := engine_boot state env.sensorManager env.accelerometerSensor env.sensorEventQueue
    Outcome.enteredLoop s.2 (main_loop (engine_restore e) polls)
  else Outcome.returnedBeforeLoop s.2

/-- Whether a run of `android_main` got as far as the event loop. -/
def Outcome.entersLoop : Outcome → Bool
  | Outcome.returnedBeforeLoop _ => false
  | Outcome.enteredLoop _ _ => true

/-! ## Reachable engine states -/

/-- What can happen to the engine between two polls: a callback is delivered, or an iteration
of the outer loop ends with the animation block. -/
inductive Action
  | deliver (d : Dispatch)
  | frame
deriving DecidableEq, Repr

/-- The engine after one action. -/
def step (e : engine) : Action → engine
  | Action.deliver d => (dispatch e d).1
  | Action.frame => (animate e).1

/-- The engine after a sequence of actions. -/
def reach (e : engine) (acts : List Action) : engine := acts.foldl step e

/-- The engine after `n` consecutive animation blocks. -/
def frames (n : Nat) (e : engine) : engine := (fun s => (animate s).1)^[n] e

/-! ## Reference values taken from the specification -/

/-- The angle the specification gives after `n` advances: `(0.01 * n) mod 1.0`, as an exact
rational. -/
def specAngle (n : Nat) : ℚ := Int.fract ((1 / 100 : ℚ) * n)

/-- Whether a binary32 value is within `10^-6` of `k / 100`, as an integer comparison. -/
def nearHundredth (a : F32) (k : Nat) : Bool :=
  decide ((a.units * 100 - Int.ofNat (k * 2 ^ 149)).natAbs * 1000000 ≤ 100 * 2 ^ 149)

/-- Check along `n` successive advances, starting from angle `a` at index `k`, that the angle
is near `k / 100`, that `0 <= a < 1`, and that `a + .01f` is not exactly `1.0f`. -/
def checkAdvances : F32 → Nat → Nat → Bool
  | _, _, 0 => true
  | a, k, n + 1 =>
      nearHundredth a k && decide (0 ≤ a.units) && decide (a.units < F32.one.units)
        && decide ((F32.add a F32.c01).units ≠ F32.one.units)
        && checkAdvances (angle_advance a) (k + 1) n

/-! ## Auxiliary definitions used in the statements -/

/-- A sample engine: freshly booted, then set animating by a motion event. -/
def engine_sample : engine :=
  { engine_boot ⟨0, Option.none, 0, 0⟩ 0 0 0 with animating := 1 }

/-- The angles of the 101-frame cycle that starts at 0. -/
def inCycle (a : F32) : Prop := ∃ j, j < 101 ∧ a = angle_advance^[j] F32.zero

/-- A sample engine with an accelerometer (handle 5) and a sensor event queue (handle 7). -/
def engine_with_sensor : engine :=
  engine_boot ⟨0, Option.none, 0, 0⟩ 1 5 7

/-- A sample of what EGL hands back when every call succeeds. -/
def egl_sample : EGLResult :=
  { display := 1, surface := 2, context := 3, makeCurrent := true, w := 1920, h := 1080 }

/-- The source lines of the `EXCEPTION_RETURN` expansions among a list of start-up steps. -/
def exceptionLines : List StartStep → List Nat
  | [] => []
  | StartStep.exceptionReturn line :: rest => line :: exceptionLines rest
  | StartStep.fopenWrite :: rest => exceptionLines rest
  | StartStep.fopenRead :: rest => exceptionLines rest

/-- A start-up environment in which the first reflective lookup (`FindClass` for
`android/os/Environment`, checked at line 272) leaves a pending exception. -/
def env_findClassFails : StartEnv :=
  { exceptionPending := fun line => line == 272
    fopenWriteOk := true
    fopenReadOk := true
    sensorManager := 1
    accelerometerSensor := 1
    sensorEventQueue := 1 }

/-- The effect of one platform call on the enabled flag of the accelerometer in the sensor
event queue. -/
def sensorFlag (enabled : Bool) : Ev → Bool
  | Ev.enableSensor _ _ => true
  | Ev.disableSensor _ _ => false
  | _ => enabled

/-- The enabled flag of the accelerometer after a list of platform calls. -/
def sensorEnabledAfter (enabled : Bool) (calls : List Ev) : Bool :=
  calls.foldl sensorFlag enabled

/-- The engine and the calls at the exit check of the main loop, when the poll results `pre`
are used up and the event `p` has just been processed. -/
def at_exit_check (e : engine) (pre : List Poll) (p : Polled) : engine × List Ev :=
  process_event (main_loop e pre).engine p

/-- The three handles are at their absent values. -/
def handlesAbsent (e : engine) : Prop :=
  e.display = EGL_NO_DISPLAY ∧ e.surface = EGL_NO_SURFACE ∧ e.context = EGL_NO_CONTEXT

/-- None of the three handles is at its absent value. -/
def handlesPresent (e : engine) : Prop :=
  e.display ≠ EGL_NO_DISPLAY ∧ e.surface ≠ EGL_NO_SURFACE ∧ e.context ≠ EGL_NO_CONTEXT

/-- An EGL answer in which a successful `eglMakeCurrent` comes with three present handles. -/
def EGLResult.allPresentOnSuccess (g : EGLResult) : Bool :=
  !g.makeCurrent || (g.display != EGL_NO_DISPLAY && g.surface != EGL_NO_SURFACE
    && g.context != EGL_NO_CONTEXT)

/-- The condition `EGLResult.allPresentOnSuccess` on the EGL answer an action carries. -/
def Action.allPresentOnSuccess : Action → Bool
  | Action.deliver (Dispatch.cmd _ _ g) => g.allPresentOnSuccess
  | Action.deliver (Dispatch.input _) => true
  | Action.frame => true

/-- An EGL answer in which `eglCreateWindowSurface` and `eglCreateContext` both failed
(returning `EGL_NO_SURFACE` and `EGL_NO_CONTEXT`) on a valid display, after which
`eglMakeCurrent(display, EGL_NO_SURFACE, EGL_NO_SURFACE, EGL_NO_CONTEXT)`, the very call
`engine_term_display` makes at line 161 to release the context, succeeded. -/
def egl_no_surface : EGLResult :=
  { display := 1, surface := 0, context := 0, makeCurrent := true, w := 0, h := 0 }

/-- A poll event that delivers a motion event and leaves `destroyRequested` at 0. -/
def poll_motion : Polled :=
  { ident := 2, source := some [Dispatch.input ⟨AINPUT_EVENT_TYPE_MOTION, 10, 20⟩],
    samples := 0, destroyRequested := 0 }

/-- A poll event that delivers no callback and after which `destroyRequested` is 1. -/
def poll_destroy : Polled :=
  { ident := 1, source := some [], samples := 0, destroyRequested := 1 }

/-! ## Arithmetic lemmas -/

/-- Whether an action delivers a motion event to `engine_handle_input`. -/
def Action.isMotion : Action → Bool
  | Action.deliver (Dispatch.input event) => decide (event.type = AINPUT_EVENT_TYPE_MOTION)
  | Action.deliver (Dispatch.cmd _ _ _) => false
  | Action.frame => false

/-- Whether, running the actions from engine `e`, every motion event is delivered in a state
whose three handles are present. -/
def motionOnlyWithHandles (e : engine) : List Action → Bool
  | [] => true
  | a :: rest =>
      (!a.isMotion || (e.display != EGL_NO_DISPLAY && e.surface != EGL_NO_SURFACE
          && e.context != EGL_NO_CONTEXT))
        && motionOnlyWithHandles (step e a) rest

/-- An EGL answer in which `eglMakeCurrent` fails. -/
def egl_makeCurrent_fails : EGLResult :=
  { display := 1, surface := 2, context := 3, makeCurrent := false, w := 0, h := 0 }

/-- A motion event at pointer position (10, 20). -/
def motion_sample : AInputEvent := ⟨AINPUT_EVENT_TYPE_MOTION, 10, 20⟩

theorem F32.toRat_zero : F32.toRat F32.zero = 0 := by
  simp [F32.toRat, F32.zero]

/-- The literal `.01f` is the binary32 value nearest to `1/100`: it has a 24-bit normalised
significand and lies within half a unit in the last place (`2^-31`) of `1/100`. -/
theorem F32.c01_nearest :
    F32.c01.units = 10737418 * 2 ^ 119 ∧ 2 ^ 23 ≤ 10737418 ∧ 10737418 < 2 ^ 24 ∧
      |F32.toRat F32.c01 - 1 / 100| ≤ 1 / 2 ^ 31 := by
  refine ⟨by simp [F32.c01], by norm_num, by norm_num, ?_⟩
  have h : F32.toRat F32.c01 = 10737418 / 2 ^ 30 := by
    simp only [F32.toRat, F32.c01, Int.ofNat_eq_coe]
    rw [div_eq_div_iff (by positivity) (by positivity)]
    norm_num
  rw [h, abs_le]
  constructor <;> norm_num

/-- Rounding keeps 24 significant bits and breaks ties towards the even significand. -/
theorem F32.roundNat_examples :
    F32.roundNat (2 ^ 24 - 1) = 2 ^ 24 - 1 ∧ F32.roundNat (2 ^ 24 + 1) = 2 ^ 24 ∧
    F32.roundNat (2 ^ 24 + 3) = 2 ^ 24 + 4 ∧ F32.roundNat (2 ^ 25 + 2) = 2 ^ 25 ∧
    F32.roundNat (2 ^ 25 + 6) = 2 ^ 25 + 8 ∧ F32.roundNat (2 ^ 25 + 5) = 2 ^ 25 + 4 := by
  decide!

/-- After 100 advances from 0 the binary32 angle is `1073741120 * 2^-30 = 0.99999934...`,
below 1 (the accumulated rounding keeps it short of the exact sum 1); the next increment
gives `1084478592 * 2^-30 = 1.0099994...`, above 1, so the 101st advance resets. -/
theorem angle_after_100_advances :
    (angle_advance^[100] F32.zero).units = Int.ofNat (1073741120 * 2 ^ 119) ∧
    (F32.add (angle_advance^[100] F32.zero) F32.c01).units
      = Int.ofNat (1084478592 * 2 ^ 119) := by
  decide!

theorem cycle_101 : angle_advance^[101] F32.zero = F32.zero := by decide!

theorem checkAdvances_cycle : checkAdvances F32.zero 0 101 = true := by decide!

theorem near_toRat (a : F32) (k : Nat) (h : nearHundredth a k = true) :
    |F32.toRat a - (k : ℚ) / 100| ≤ 1 / 1000000 := by
  simp only [nearHundredth, decide_eq_true_eq, Int.ofNat_eq_coe] at h
  have hPq : (2 : ℚ) ^ 149 = (((2 : ℕ) ^ 149 : ℕ) : ℚ) := by
    rw [Nat.cast_pow, Nat.cast_ofNat]
  unfold F32.toRat
  rw [hPq]
  generalize hP : (2 : ℕ) ^ 149 = P at h ⊢
  have hPpos : (0 : ℚ) < (P : ℚ) := by
    have : 0 < P := by rw [← hP]; positivity
    exact_mod_cast this
  have hz : |a.units * 100 - ((k * P : ℕ) : ℤ)| * 1000000 ≤ ((100 * P : ℕ) : ℤ) := by
    rw [← Int.natCast_natAbs]
    exact_mod_cast h
  have hq : |(a.units : ℚ) * 100 - (k : ℚ) * P| * 1000000 ≤ 100 * P := by
    have := (Int.cast_le (R := ℚ)).mpr hz
    push_cast at this
    simpa using this
  have e1 : (a.units : ℚ) / P - (k : ℚ) / 100
      = ((a.units : ℚ) * 100 - (k : ℚ) * P) / (100 * P) := by
    field_simp
    ring
  rw [e1, abs_div, abs_of_pos (by positivity : (0 : ℚ) < 100 * P),
    div_le_div_iff₀ (by positivity) (by positivity)]
  linarith

theorem checkAdvances_sound (n : Nat) : ∀ (a : F32) (k : Nat), checkAdvances a k n = true →
    ∀ j, j < n → nearHundredth (angle_advance^[j] a) (k + j) = true ∧
      0 ≤ (angle_advance^[j] a).units ∧ (angle_advance^[j] a).units < F32.one.units ∧
      (F32.add (angle_advance^[j] a) F32.c01).units ≠ F32.one.units := by
  induction n with
  | zero => intro a k _ j hj; omega
  | succ n ih =>
    intro a k h j hj
    simp only [checkAdvances, Bool.and_eq_true, decide_eq_true_eq] at h
    obtain ⟨⟨⟨⟨h1, h2⟩, h3⟩, h5⟩, h4⟩ := h
    cases j with
    | zero => exact ⟨h1, h2, h3, h5⟩
    | succ j =>
      have := ih (angle_advance a) (k + 1) h4 j (by omega)
      rw [Function.iterate_succ_apply]
      rw [show k + (j + 1) = k + 1 + j by omega]
      exact this

theorem angle_iter_mod (n : Nat) :
    angle_advance^[n] F32.zero = angle_advance^[n % 101] F32.zero := by
  induction n using Nat.strong_induction_on with
  | _ n ih =>
    by_cases h : n < 101
    · rw [Nat.mod_eq_of_lt h]
    · have hn : n = (n - 101) + 101 := by omega
      have h1 : angle_advance^[n] F32.zero = angle_advance^[n - 101] F32.zero := by
        conv_lhs => rw [hn, Function.iterate_add_apply, cycle_101]
      rw [h1, ih (n - 101) (by omega)]
      congr 1
      conv_rhs => rw [hn, Nat.add_mod_right]

theorem engine_draw_frame_fst (e : engine) : (engine_draw_frame e).1 = e := by
  unfold engine_draw_frame
  split <;> rfl

theorem animate_fst (e : engine) (h : e.animating ≠ 0) :
    (animate e).1 = { e with state := { e.state with angle := angle_advance e.state.angle } } := by
  unfold animate
  rw [if_pos h, engine_draw_frame_fst]

theorem frames_eq (n : Nat) (e : engine) (h : e.animating ≠ 0) :
    frames n e = { e with state := { e.state with angle := angle_advance^[n] e.state.angle } } := by
  induction n with
  | zero => rfl
  | succ n ih =>
    unfold frames at ih ⊢
    rw [Function.iterate_succ_apply', ih, animate_fst, Function.iterate_succ_apply']
    exact h

theorem frames_angle (n : Nat) (e : engine) (h : e.animating ≠ 0) :
    (frames n e).state.angle = angle_advance^[n] e.state.angle := by
  rw [frames_eq n e h]

theorem specAngle_eq (n : Nat) : specAngle n = ((n % 100 : ℕ) : ℚ) / 100 := by
  unfold specAngle
  rw [Int.fract_eq_iff]
  refine ⟨by positivity, ?_, ⟨((n / 100 : ℕ) : ℤ), ?_⟩⟩
  · rw [div_lt_one (by norm_num)]
    exact_mod_cast Nat.mod_lt n (by norm_num)
  · have h := Nat.div_add_mod n 100
    have hq : (n : ℚ) = 100 * ((n / 100 : ℕ) : ℚ) + ((n % 100 : ℕ) : ℚ) := by exact_mod_cast h.symm
    rw [Int.cast_natCast]
    generalize ((n / 100 : ℕ) : ℚ) = q at hq ⊢
    generalize ((n % 100 : ℕ) : ℚ) = r at hq ⊢
    rw [hq]
    ring

theorem F32.toRat_nonneg_iff (a : F32) : 0 ≤ F32.toRat a ↔ 0 ≤ a.units := by
  unfold F32.toRat
  rw [div_nonneg_iff]
  constructor
  · rintro (⟨h, _⟩ | ⟨_, h⟩)
    · exact_mod_cast h
    · exact absurd h (not_le.mpr (by positivity))
  · intro h
    exact Or.inl ⟨by exact_mod_cast h, by positivity⟩

theorem F32.one_units_cast : ((F32.one.units : ℤ) : ℚ) = 2 ^ 149 := by
  show ((Int.ofNat (2 ^ 149) : ℤ) : ℚ) = 2 ^ 149
  rw [Int.ofNat_eq_coe, Int.cast_natCast, Nat.cast_pow, Nat.cast_ofNat]

theorem F32.toRat_lt_one_iff (a : F32) : F32.toRat a < 1 ↔ a.units < F32.one.units := by
  unfold F32.toRat
  rw [div_lt_one (by positivity), ← F32.one_units_cast, Int.cast_lt]

theorem F32.one_le_toRat_iff (a : F32) : 1 ≤ F32.toRat a ↔ F32.one.units ≤ a.units := by
  unfold F32.toRat
  rw [one_le_div (by positivity), ← F32.one_units_cast, Int.cast_le]

theorem inCycle_zero : inCycle F32.zero := ⟨0, by norm_num, rfl⟩

theorem inCycle_advance (a : F32) (h : inCycle a) : inCycle (angle_advance a) := by
  obtain ⟨j, hj, rfl⟩ := h
  by_cases h100 : j + 1 < 101
  · exact ⟨j + 1, h100, (Function.iterate_succ_apply' angle_advance j F32.zero).symm⟩
  · have h101 : j + 1 = 101 := by omega
    refine ⟨0, by norm_num, ?_⟩
    have h : angle_advance^[j + 1] F32.zero = angle_advance (angle_advance^[j] F32.zero) :=
      Function.iterate_succ_apply' angle_advance j F32.zero
    rw [h101, cycle_101] at h
    exact h.symm

theorem inCycle_bounds (a : F32) (h : inCycle a) :
    0 ≤ a.units ∧ a.units < F32.one.units ∧ (F32.add a F32.c01).units ≠ F32.one.units := by
  obtain ⟨j, hj, rfl⟩ := h
  exact (checkAdvances_sound 101 F32.zero 0 checkAdvances_cycle j hj).2

theorem engine_init_display_angle (g : EGLResult) (e : engine) :
    (engine_init_display g e).2.1.state.angle = e.state.angle ∨
      (engine_init_display g e).2.1.state.angle = F32.zero := by
  unfold engine_init_display
  split
  · exact Or.inl rfl
  · exact Or.inr rfl

theorem engine_handle_cmd_angle (g : EGLResult) (e : engine) (c : Int) :
    (engine_handle_cmd g e c).1.state.angle = e.state.angle ∨
      (engine_handle_cmd g e c).1.state.angle = F32.zero := by
  unfold engine_handle_cmd
  split_ifs
  all_goals first
    | exact Or.inl rfl
    | (simp only [engine_draw_frame_fst]
       first
         | exact Or.inl rfl
         | exact Or.inl trivial
         | exact engine_init_display_angle g e)

theorem engine_handle_input_state (e : engine) (ev : AInputEvent) :
    (engine_handle_input e ev).2.state.angle = e.state.angle := by
  unfold engine_handle_input
  split <;> rfl

theorem step_inCycle (e : engine) (a : Action) (h : inCycle e.state.angle) :
    inCycle (step e a).state.angle := by
  cases a with
  | deliver d =>
    cases d with
    | cmd c w g =>
      rcases engine_handle_cmd_angle g { e with app := { e.app with window := w } } c with h1 | h1
      · show inCycle (engine_handle_cmd g _ c).1.state.angle
        rw [h1]; exact h
      · show inCycle (engine_handle_cmd g _ c).1.state.angle
        rw [h1]; exact inCycle_zero
    | input ev =>
      show inCycle (engine_handle_input e ev).2.state.angle
      rw [engine_handle_input_state]; exact h
  | frame =>
    show inCycle (animate e).1.state.angle
    by_cases ha : e.animating ≠ 0
    · rw [animate_fst e ha]
      exact inCycle_advance _ h
    · unfold animate
      rw [if_neg ha]
      exact h

theorem reach_inCycle (acts : List Action) : ∀ e : engine, inCycle e.state.angle →
    inCycle (reach e acts).state.angle := by
  induction acts with
  | nil => intro e h; exact h
  | cons a acts ih =>
    intro e h
    exact ih (step e a) (step_inCycle e a h)

theorem run_startup_completes_iff (env : StartEnv) (steps : List StartStep) :
    (run_startup env steps).1 = true ↔
      ∀ line ∈ exceptionLines steps, env.exceptionPending line = false := by
  induction steps with
  | nil => simp [run_startup, exceptionLines]
  | cons st rest ih =>
    cases st with
    | exceptionReturn line =>
      simp only [run_startup, exceptionLines, List.mem_cons, forall_eq_or_imp]
      by_cases h : env.exceptionPending line = true
      · simp [h]
      · simp only [Bool.not_eq_true] at h
        simp [h, ih]
    | fopenWrite => simpa [run_startup, exceptionLines] using ih
    | fopenRead => simpa [run_startup, exceptionLines] using ih

theorem sensorEnabledAfter_append (b : Bool) (t1 t2 : List Ev) :
    sensorEnabledAfter b (t1 ++ t2) = sensorEnabledAfter (sensorEnabledAfter b t1) t2 := by
  simp [sensorEnabledAfter, List.foldl_append]

theorem sensorEnabledAfter_draw (b : Bool) (e : engine) :
    sensorEnabledAfter b (engine_draw_frame e).2 = b := by
  unfold engine_draw_frame
  split <;> rfl

theorem engine_handle_cmd_gained (g : EGLResult) (e : engine) (b : Bool) :
    (engine_handle_cmd g e APP_CMD_GAINED_FOCUS).1.accelerometerSensor
        = e.accelerometerSensor ∧
    sensorEnabledAfter b (engine_handle_cmd g e APP_CMD_GAINED_FOCUS).2
        = if e.accelerometerSensor ≠ NULL then true else b := by
  unfold engine_handle_cmd
  rw [if_neg (by decide), if_neg (by decide), if_neg (by decide), if_pos rfl]
  by_cases h : e.accelerometerSensor ≠ NULL
  · rw [if_pos h, if_pos h]
    exact ⟨rfl, rfl⟩
  · rw [if_neg h, if_neg h]
    exact ⟨rfl, rfl⟩

theorem engine_handle_cmd_lost (g : EGLResult) (e : engine) (b : Bool) :
    (engine_handle_cmd g e APP_CMD_LOST_FOCUS).1.accelerometerSensor
        = e.accelerometerSensor ∧
    sensorEnabledAfter b (engine_handle_cmd g e APP_CMD_LOST_FOCUS).2
        = if e.accelerometerSensor ≠ NULL then false else b := by
  unfold engine_handle_cmd
  rw [if_neg (by decide), if_neg (by decide), if_neg (by decide), if_neg (by decide), if_pos rfl]
  simp only [engine_draw_frame_fst, sensorEnabledAfter_append, sensorEnabledAfter_draw]
  by_cases h : e.accelerometerSensor ≠ NULL
  · rw [if_pos h, if_pos h]
    exact ⟨trivial, rfl⟩
  · rw [if_neg h, if_neg h]
    exact ⟨trivial, rfl⟩

theorem dispatch_gained (e : engine) (w : Handle) (g : EGLResult) (b : Bool) :
    (dispatch e (Dispatch.cmd APP_CMD_GAINED_FOCUS w g)).1.accelerometerSensor
        = e.accelerometerSensor ∧
    sensorEnabledAfter b (dispatch e (Dispatch.cmd APP_CMD_GAINED_FOCUS w g)).2
        = if e.accelerometerSensor ≠ NULL then true else b :=
  engine_handle_cmd_gained g { e with app := { e.app with window := w } } b

theorem dispatch_lost (e : engine) (w : Handle) (g : EGLResult) (b : Bool) :
    (dispatch e (Dispatch.cmd APP_CMD_LOST_FOCUS w g)).1.accelerometerSensor
        = e.accelerometerSensor ∧
    sensorEnabledAfter b (dispatch e (Dispatch.cmd APP_CMD_LOST_FOCUS w g)).2
        = if e.accelerometerSensor ≠ NULL then false else b :=
  engine_handle_cmd_lost g { e with app := { e.app with window := w } } b

theorem dispatch_focus (e : engine) (d : Dispatch) (b : Bool)
    (hd : d.cmdCode = some APP_CMD_GAINED_FOCUS ∨ d.cmdCode = some APP_CMD_LOST_FOCUS) :
    (dispatch e d).1.accelerometerSensor = e.accelerometerSensor ∧
    sensorEnabledAfter b (dispatch e d).2
      = if e.accelerometerSensor ≠ NULL then decide (d.cmdCode = some APP_CMD_GAINED_FOCUS)
        else b := by
  cases d with
  | input ev => simp [Dispatch.cmdCode] at hd
  | cmd c w g =>
    simp only [Dispatch.cmdCode, Option.some.injEq] at hd ⊢
    rcases hd with rfl | rfl
    · have := dispatch_gained e w g b
      simpa using this
    · have := dispatch_lost e w g b
      have hne : ¬ (APP_CMD_LOST_FOCUS = APP_CMD_GAINED_FOCUS) := by decide
      simpa [hne] using this

theorem dispatchAll_focus (ds : List Dispatch) : ∀ (e : engine) (b : Bool), ds ≠ [] →
    (∀ d ∈ ds, d.cmdCode = some APP_CMD_GAINED_FOCUS ∨ d.cmdCode = some APP_CMD_LOST_FOCUS) →
    sensorEnabledAfter b (dispatchAll e ds).2
      = if e.accelerometerSensor ≠ NULL
        then decide (ds.getLast?.bind Dispatch.cmdCode = some APP_CMD_GAINED_FOCUS)
        else b := by
  induction ds with
  | nil => intro e b h; exact absurd rfl h
  | cons d ds ih =>
    intro e b _ hf
    have hd := dispatch_focus e d b (hf d (List.mem_cons_self d ds))
    simp only [dispatchAll, sensorEnabledAfter_append]
    by_cases hds : ds = []
    · subst hds
      simp only [dispatchAll, sensorEnabledAfter, List.foldl_nil, List.getLast?_singleton,
        Option.some_bind]
      exact hd.2
    · rw [ih (dispatch e d).1 _ hds (fun x hx => hf x (List.mem_cons_of_mem d hx)), hd.1, hd.2]
      obtain ⟨d2, ds2, rfl⟩ := List.exists_cons_of_ne_nil hds
      rw [List.getLast?_cons_cons]
      by_cases hs : e.accelerometerSensor ≠ NULL
      · rw [if_pos hs, if_pos hs]
      · rw [if_neg hs, if_neg hs, if_neg hs]

theorem process_event_destroyRequested (e : engine) (p : Polled) :
    (process_event e p).1.app.destroyRequested = p.destroyRequested := rfl

theorem main_loop_none (e : engine) (rest : List Poll) :
    main_loop e (Poll.none :: rest) =
      { engine := (main_loop (animate e).1 rest).engine
        trace := (animate e).2 ++ (main_loop (animate e).1 rest).trace
        returned := (main_loop (animate e).1 rest).returned } := rfl

theorem main_loop_event_continue (e : engine) (q : Polled) (rest : List Poll)
    (h : ¬ (process_event e q).1.app.destroyRequested ≠ 0) :
    main_loop e (Poll.event q :: rest) =
      { engine := (main_loop (process_event e q).1 rest).engine
        trace := (process_event e q).2 ++ (main_loop (process_event e q).1 rest).trace
        returned := (main_loop (process_event e q).1 rest).returned } := by
  simp only [main_loop, if_neg h]

theorem main_loop_until_destroy (pre : List Poll) : ∀ (e : engine) (p : Polled)
    (post : List Poll), (∀ q, Poll.event q ∈ pre → q.destroyRequested = 0) →
    p.destroyRequested ≠ 0 →
    (main_loop e pre).returned = false ∧
    main_loop e (pre ++ Poll.event p :: post) =
      { engine := (engine_term_display (at_exit_check e pre p).1).1
        trace := (main_loop e pre).trace ++
          ((at_exit_check e pre p).2 ++ (engine_term_display (at_exit_check e pre p).1).2)
        returned := true } := by
  induction pre with
  | nil =>
    intro e p post _ hp
    refine ⟨rfl, ?_⟩
    have hd : (process_event e p).1.app.destroyRequested ≠ 0 := by
      rw [process_event_destroyRequested]; exact hp
    simp only [List.nil_append, main_loop, at_exit_check, if_pos hd, List.nil_append]
  | cons x pre ih =>
    intro e p post hpre hp
    have hpre2 : ∀ q, Poll.event q ∈ pre → q.destroyRequested = 0 :=
      fun q hq => hpre q (List.mem_cons_of_mem x hq)
    cases x with
    | none =>
      obtain ⟨h1, h2⟩ := ih (animate e).1 p post hpre2 hp
      refine ⟨?_, ?_⟩
      · rw [main_loop_none]; exact h1
      · rw [List.cons_append, main_loop_none, h2]
        simp only [at_exit_check, main_loop_none, List.append_assoc]
    | event q =>
      have hq : q.destroyRequested = 0 := hpre q (List.mem_cons_self _ _)
      have hd : ¬ (process_event e q).1.app.destroyRequested ≠ 0 := by
        rw [process_event_destroyRequested, hq]; simp
      obtain ⟨h1, h2⟩ := ih (process_event e q).1 p post hpre2 hp
      refine ⟨?_, ?_⟩
      · rw [main_loop_event_continue e q pre hd]; exact h1
      · rw [List.cons_append, main_loop_event_continue e q _ hd, h2]
        simp only [at_exit_check, main_loop_event_continue e q pre hd, List.append_assoc]

theorem engine_term_display_trace (e : engine) :
    (engine_term_display e).2.count (Ev.enter Fn.engine_term_display) = 1 ∧
    Ev.enter Fn.engine_draw_frame ∉ (engine_term_display e).2 := by
  unfold engine_term_display
  constructor
  · simp only [List.count_cons_self]
    split_ifs <;> simp
  · split_ifs <;> simp

theorem engine_init_display_handles (g : EGLResult) (e : engine) :
    (g.makeCurrent = true →
      (engine_init_display g e).1 = 0 ∧
      (engine_init_display g e).2.1.display = g.display ∧
      (engine_init_display g e).2.1.surface = g.surface ∧
      (engine_init_display g e).2.1.context = g.context) ∧
    (g.makeCurrent = false →
      (engine_init_display g e).1 = -1 ∧ (engine_init_display g e).2.1 = e) := by
  unfold engine_init_display
  constructor
  · intro h
    simp [h]
  · intro h
    simp [h]

theorem engine_handle_cmd_handles (g : EGLResult) (e : engine) (c : Int) :
    ((engine_handle_cmd g e c).1.display = e.display ∧
      (engine_handle_cmd g e c).1.surface = e.surface ∧
      (engine_handle_cmd g e c).1.context = e.context) ∨
    handlesAbsent (engine_handle_cmd g e c).1 ∨
    (g.makeCurrent = true ∧
      (engine_handle_cmd g e c).1.display = g.display ∧
      (engine_handle_cmd g e c).1.surface = g.surface ∧
      (engine_handle_cmd g e c).1.context = g.context) := by
  unfold engine_handle_cmd
  split_ifs with h1 h2 h3 h4 h5 h6 h7 h8
  · exact Or.inl ⟨rfl, rfl, rfl⟩
  · simp only [engine_draw_frame_fst]
    cases hm : g.makeCurrent with
    | true => exact Or.inr (Or.inr ⟨rfl, ((engine_init_display_handles g e).1 hm).2⟩)
    | false =>
      rw [((engine_init_display_handles g e).2 hm).2]
      exact Or.inl ⟨rfl, rfl, rfl⟩
  · exact Or.inl ⟨rfl, rfl, rfl⟩
  · exact Or.inr (Or.inl ⟨rfl, rfl, rfl⟩)
  all_goals first
    | exact Or.inl ⟨rfl, rfl, rfl⟩
    | (simp only [engine_draw_frame_fst]
       exact Or.inl ⟨trivial, trivial, trivial⟩)

theorem step_handles (e : engine) (a : Action) (ha : a.allPresentOnSuccess = true)
    (h : handlesAbsent e ∨ handlesPresent e) :
    handlesAbsent (step e a) ∨ handlesPresent (step e a) := by
  cases a with
  | deliver d =>
    cases d with
    | cmd c w g =>
      have hk := engine_handle_cmd_handles g { e with app := { e.app with window := w } } c
      show handlesAbsent (engine_handle_cmd g _ c).1 ∨ handlesPresent (engine_handle_cmd g _ c).1
      rcases hk with ⟨k1, k2, k3⟩ | hk | ⟨hm, k1, k2, k3⟩
      · unfold handlesAbsent handlesPresent at h ⊢
        rw [k1, k2, k3]
        exact h
      · exact Or.inl hk
      · right
        unfold handlesPresent
        rw [k1, k2, k3]
        simp only [Action.allPresentOnSuccess, EGLResult.allPresentOnSuccess, hm, Bool.not_true,
          Bool.false_or, Bool.and_eq_true, bne_iff_ne, ne_eq] at ha
        exact ⟨ha.1.1, ha.1.2, ha.2⟩
    | input ev =>
      show handlesAbsent (engine_handle_input e ev).2 ∨ handlesPresent (engine_handle_input e ev).2
      unfold engine_handle_input
      split
      · exact h
      · exact h
  | frame =>
    show handlesAbsent (animate e).1 ∨ handlesPresent (animate e).1
    unfold animate
    split
    · rw [engine_draw_frame_fst]; exact h
    · exact h

theorem reach_handles (acts : List Action) : ∀ e : engine,
    (∀ a ∈ acts, a.allPresentOnSuccess = true) →
    (handlesAbsent e ∨ handlesPresent e) →
    (handlesAbsent (reach e acts) ∨ handlesPresent (reach e acts)) := by
  induction acts with
  | nil => intro e _ h; exact h
  | cons a acts ih =>
    intro e ha h
    exact ih (step e a) (fun x hx => ha x (List.mem_cons_of_mem a hx))
      (step_handles e a (ha a (List.mem_cons_self a acts)) h)

theorem engine_handle_cmd_animating (g : EGLResult) (e : engine) (c : Int) :
    ((engine_handle_cmd g e c).1.animating = e.animating ∧
      (engine_handle_cmd g e c).1.display = e.display ∧
      (engine_handle_cmd g e c).1.surface = e.surface ∧
      (engine_handle_cmd g e c).1.context = e.context) ∨
    (engine_handle_cmd g e c).1.animating = 0 ∨
    (g.makeCurrent = true ∧
      (engine_handle_cmd g e c).1.display = g.display ∧
      (engine_handle_cmd g e c).1.surface = g.surface ∧
      (engine_handle_cmd g e c).1.context = g.context) := by
  unfold engine_handle_cmd
  split_ifs with h1 h2 h3 h4 h5 h6 h7 h8
  · exact Or.inl ⟨rfl, rfl, rfl, rfl⟩
  · simp only [engine_draw_frame_fst]
    cases hm : g.makeCurrent with
    | true => exact Or.inr (Or.inr ⟨rfl, ((engine_init_display_handles g e).1 hm).2⟩)
    | false =>
      rw [((engine_init_display_handles g e).2 hm).2]
      exact Or.inl ⟨rfl, rfl, rfl, rfl⟩
  · exact Or.inl ⟨rfl, rfl, rfl, rfl⟩
  · exact Or.inr (Or.inl rfl)
  all_goals first
    | exact Or.inl ⟨rfl, rfl, rfl, rfl⟩
    | (simp only [engine_draw_frame_fst]
       first
         | exact Or.inr (Or.inl rfl)
         | exact Or.inr (Or.inl trivial))

theorem engine_handle_input_motion (e : engine) (ev : AInputEvent)
    (h : ev.type = AINPUT_EVENT_TYPE_MOTION) :
    (engine_handle_input e ev).2.animating = 1 ∧
    (engine_handle_input e ev).2.display = e.display ∧
    (engine_handle_input e ev).2.surface = e.surface ∧
    (engine_handle_input e ev).2.context = e.context := by
  unfold engine_handle_input
  rw [if_pos h]
  exact ⟨rfl, rfl, rfl, rfl⟩

theorem step_animating_handles (e : engine) (a : Action)
    (hI : e.animating ≠ 0 → handlesPresent e) (hg : a.allPresentOnSuccess = true)
    (hm : a.isMotion = true → handlesPresent e) :
    (step e a).animating ≠ 0 → handlesPresent (step e a) := by
  cases a with
  | deliver d =>
    cases d with
    | cmd c w g =>
      have hk := engine_handle_cmd_animating g { e with app := { e.app with window := w } } c
      show (engine_handle_cmd g _ c).1.animating ≠ 0 → handlesPresent (engine_handle_cmd g _ c).1
      rcases hk with ⟨k0, k1, k2, k3⟩ | hk | ⟨hmc, k1, k2, k3⟩
      · intro hne
        rw [k0] at hne
        unfold handlesPresent
        rw [k1, k2, k3]
        exact hI hne
      · intro hne
        exact absurd hk hne
      · intro _
        unfold handlesPresent
        rw [k1, k2, k3]
        simp only [Action.allPresentOnSuccess, EGLResult.allPresentOnSuccess, hmc, Bool.not_true,
          Bool.false_or, Bool.and_eq_true, bne_iff_ne, ne_eq] at hg
        exact ⟨hg.1.1, hg.1.2, hg.2⟩
    | input ev =>
      show (engine_handle_input e ev).2.animating ≠ 0 → handlesPresent (engine_handle_input e ev).2
      by_cases hmot : ev.type = AINPUT_EVENT_TYPE_MOTION
      · intro _
        have hp : handlesPresent e := hm (by simp [Action.isMotion, hmot])
        obtain ⟨_, k1, k2, k3⟩ := engine_handle_input_motion e ev hmot
        unfold handlesPresent at hp ⊢
        rw [k1, k2, k3]
        exact hp
      · unfold engine_handle_input
        rw [if_neg hmot]
        exact hI
  | frame =>
    show (animate e).1.animating ≠ 0 → handlesPresent (animate e).1
    unfold animate
    split
    · rw [engine_draw_frame_fst]; exact hI
    · exact hI

theorem reach_animating_handles (acts : List Action) : ∀ e : engine,
    (e.animating ≠ 0 → handlesPresent e) →
    (∀ a ∈ acts, a.allPresentOnSuccess = true) →
    motionOnlyWithHandles e acts = true →
    ((reach e acts).animating ≠ 0 → handlesPresent (reach e acts)) := by
  induction acts with
  | nil => intro e hI _ _; exact hI
  | cons a acts ih =>
    intro e hI hg hm
    simp only [motionOnlyWithHandles, Bool.and_eq_true, Bool.or_eq_true, Bool.not_eq_true',
      bne_iff_ne, ne_eq] at hm
    refine ih (step e a) ?_ (fun x hx => hg x (List.mem_cons_of_mem a hx)) hm.2
    refine step_animating_handles e a hI (hg a (List.mem_cons_self a acts)) ?_
    intro hmot
    rcases hm.1 with h | h
    · rw [hmot] at h
      exact absurd h (by decide)
    · exact ⟨h.1.1, h.1.2, h.2⟩

/-! ## C1: the angle after `N` animation frames -/

/-- C1, as stated, fails on the code.  Starting from angle 0 with `animating` set, after 101
animation frames the reset has just fired and the angle is exactly 0, where the claim gives
`(0.01 * 101) mod 1.0 = 0.01`; after 5050 frames the angle is 0 again, where the claim gives
0.5.  Neither pair agrees to within 1/1000. -/
theorem C1_spec_angle_refuted :
    engine_sample.animating ≠ 0 ∧ engine_sample.state.angle = F32.zero ∧
    (frames 101 engine_sample).state.angle = F32.zero ∧ specAngle 101 = 1 / 100 ∧
    ¬ |F32.toRat (frames 101 engine_sample).state.angle - specAngle 101| ≤ 1 / 1000 ∧
    (frames 5050 engine_sample).state.angle = F32.zero ∧ specAngle 5050 = 1 / 2 ∧
    ¬ |F32.toRat (frames 5050 engine_sample).state.angle - specAngle 5050| ≤ 1 / 1000 := by
  have ha : engine_sample.animating ≠ 0 := by decide
  have h0 : engine_sample.state.angle = F32.zero := rfl
  have h101 : (frames 101 engine_sample).state.angle = F32.zero := by
    rw [frames_angle _ _ ha, h0]
    exact cycle_101
  have h5050 : (frames 5050 engine_sample).state.angle = F32.zero := by
    rw [frames_angle _ _ ha, h0, angle_iter_mod]
    rfl
  have s101 : specAngle 101 = 1 / 100 := by rw [specAngle_eq]; norm_num
  have s5050 : specAngle 5050 = 1 / 2 := by rw [specAngle_eq]; norm_num
  refine ⟨ha, h0, h101, s101, ?_, h5050, s5050, ?_⟩
  · rw [h101, s101, F32.toRat_zero]; norm_num [abs_le]
  · rw [h5050, s5050, F32.toRat_zero]; norm_num [abs_le]

/-- C1, amended.  Starting from angle 0 with `animating` set, the angle after `N` animation
frames is the angle after `N mod 101` frames (the reset fires only once the angle exceeds 1, so
a cycle has 101 frames, not 100), and it lies within `10^-6` of `0.01 * (N mod 101)`. -/
theorem C1_angle_after_frames (e : engine) (N : Nat) (ha : e.animating ≠ 0)
    (h0 : e.state.angle = F32.zero) :
    (frames N e).state.angle = (frames (N % 101) e).state.angle ∧
    |F32.toRat (frames N e).state.angle - ((N % 101 : ℕ) : ℚ) / 100| ≤ 1 / 1000000 := by
  have hN : (frames N e).state.angle = angle_advance^[N % 101] F32.zero := by
    rw [frames_angle _ _ ha, h0, angle_iter_mod]
  have hM : (frames (N % 101) e).state.angle = angle_advance^[N % 101] F32.zero := by
    rw [frames_angle _ _ ha, h0]
  refine ⟨by rw [hN, hM], ?_⟩
  rw [hN]
  have h := (checkAdvances_sound 101 F32.zero 0 checkAdvances_cycle (N % 101)
    (Nat.mod_lt N (by norm_num))).1
  rw [Nat.zero_add] at h
  exact near_toRat _ _ h

/-- Witness for `C1_angle_after_frames`: the sample engine after 250 frames. -/
theorem C1_angle_after_frames_witness :
    engine_sample.animating ≠ 0 ∧ engine_sample.state.angle = F32.zero ∧
    (frames 250 engine_sample).state.angle = (frames (250 % 101) engine_sample).state.angle ∧
    |F32.toRat (frames 250 engine_sample).state.angle - ((250 % 101 : ℕ) : ℚ) / 100|
      ≤ 1 / 1000000 :=
  ⟨by decide, rfl, C1_angle_after_frames engine_sample 250 (by decide) rfl⟩

/-! ## C2: the angle stays in `[0, 1)` -/

/-- C2.  In every state reached from the booted (zero-initialised) engine by any sequence of
delivered commands, input events and animation frames, the angle satisfies `0 <= angle < 1`;
and the advance of the animation block, applied to that angle, gives 0 exactly when the
incremented angle has reached or exceeded 1, and the incremented angle otherwise. -/
theorem C2_angle_in_unit_interval (state : android_app) (manager sensor queue : Handle)
    (acts : List Action) :
    0 ≤ F32.toRat (reach (engine_boot state manager sensor queue) acts).state.angle ∧
    F32.toRat (reach (engine_boot state manager sensor queue) acts).state.angle < 1 ∧
    angle_advance (reach (engine_boot state manager sensor queue) acts).state.angle =
      if 1 ≤ F32.toRat
          (F32.add (reach (engine_boot state manager sensor queue) acts).state.angle F32.c01)
      then F32.zero
      else F32.add (reach (engine_boot state manager sensor queue) acts).state.angle F32.c01 := by
  have hc := reach_inCycle acts (engine_boot state manager sensor queue) inCycle_zero
  obtain ⟨h0, h1, h2⟩ := inCycle_bounds _ hc
  refine ⟨(F32.toRat_nonneg_iff _).mpr h0, (F32.toRat_lt_one_iff _).mpr h1, ?_⟩
  unfold angle_advance
  simp only [F32.one_le_toRat_iff]
  by_cases hlt : F32.one.units <
      (F32.add (reach (engine_boot state manager sensor queue) acts).state.angle F32.c01).units
  · rw [if_pos hlt, if_pos (le_of_lt hlt)]
  · rw [if_neg hlt, if_neg]
    intro hle
    exact hlt (lt_of_le_of_ne hle (Ne.symm h2))

/-! ## C3: save, then restore -/

/-- C3.  For every engine state `s`, the record stored by the `APP_CMD_SAVE_STATE` handler,
handed to a freshly booted engine through `savedState`, is restored with exactly the angle,
`x` and `y` of `s`; the recorded `savedStateSize` is the size of the three-member record,
12 bytes. -/
theorem C3_save_restore_roundtrip (g : EGLResult) (s : engine) (state : android_app)
    (manager sensor queue : Handle) :
    (engine_restore (engine_boot
        { state with savedState := (engine_handle_cmd g s APP_CMD_SAVE_STATE).1.app.savedState }
        manager sensor queue)).state.angle = s.state.angle ∧
    (engine_restore (engine_boot
        { state with savedState := (engine_handle_cmd g s APP_CMD_SAVE_STATE).1.app.savedState }
        manager sensor queue)).state.x = s.state.x ∧
    (engine_restore (engine_boot
        { state with savedState := (engine_handle_cmd g s APP_CMD_SAVE_STATE).1.app.savedState }
        manager sensor queue)).state.y = s.state.y ∧
    (engine_handle_cmd g s APP_CMD_SAVE_STATE).1.app.savedStateSize = sizeof_saved_state ∧
    sizeof_saved_state = 12 := by
  have h : (engine_handle_cmd g s APP_CMD_SAVE_STATE).1 =
      { s with app := { s.app with savedState := some s.state,
                                   savedStateSize := sizeof_saved_state } } := by
    unfold engine_handle_cmd
    rw [if_pos rfl]
  rw [h]
  exact ⟨rfl, rfl, rfl, rfl, rfl⟩

/-! ## C4: window detach -/

/-- C4.  For every engine state, handling `APP_CMD_TERM_WINDOW` is `engine_term_display`; it
leaves `display`, `surface` and `context` at their absent values and `animating` at 0,
whatever they were before, and leaves the angle, `x` and `y` unchanged. -/
theorem C4_term_window_clears_handles (g : EGLResult) (e : engine) :
    engine_handle_cmd g e APP_CMD_TERM_WINDOW = engine_term_display e ∧
    (engine_handle_cmd g e APP_CMD_TERM_WINDOW).1.display = EGL_NO_DISPLAY ∧
    (engine_handle_cmd g e APP_CMD_TERM_WINDOW).1.surface = EGL_NO_SURFACE ∧
    (engine_handle_cmd g e APP_CMD_TERM_WINDOW).1.context = EGL_NO_CONTEXT ∧
    (engine_handle_cmd g e APP_CMD_TERM_WINDOW).1.animating = 0 ∧
    (engine_handle_cmd g e APP_CMD_TERM_WINDOW).1.state.angle = e.state.angle ∧
    (engine_handle_cmd g e APP_CMD_TERM_WINDOW).1.state.x = e.state.x ∧
    (engine_handle_cmd g e APP_CMD_TERM_WINDOW).1.state.y = e.state.y := by
  have h : engine_handle_cmd g e APP_CMD_TERM_WINDOW = engine_term_display e := by
    unfold engine_handle_cmd
    rw [if_neg (by decide), if_neg (by decide), if_pos rfl]
  rw [h]
  exact ⟨rfl, rfl, rfl, rfl, rfl, rfl, rfl, rfl⟩

/-! ## C5: the sensor follows the focus -/

/-- C5.  For every non-empty sequence of `APP_CMD_GAINED_FOCUS` / `APP_CMD_LOST_FOCUS`
commands delivered to `engine_handle_cmd`, starting with the accelerometer not enabled in
the (freshly created) queue, the accelerometer is enabled afterwards if and only if the last
command was `APP_CMD_GAINED_FOCUS` and `accelerometerSensor` is non-null. -/
theorem C5_sensor_enabled_iff_last_gained (e : engine) (ds : List Dispatch) (hne : ds ≠ [])
    (hf : ∀ d ∈ ds,
      d.cmdCode = some APP_CMD_GAINED_FOCUS ∨ d.cmdCode = some APP_CMD_LOST_FOCUS) :
    sensorEnabledAfter false (dispatchAll e ds).2 = true ↔
      (ds.getLast?.bind Dispatch.cmdCode = some APP_CMD_GAINED_FOCUS ∧
        e.accelerometerSensor ≠ NULL) := by
  rw [dispatchAll_focus ds e false hne hf]
  by_cases hs : e.accelerometerSensor ≠ NULL
  · simp [hs]
  · simp [hs]

/-- Witness for `C5_sensor_enabled_iff_last_gained`: gain, lose, gain focus on an engine with
a sensor. -/
theorem C5_sensor_enabled_iff_last_gained_witness :
    sensorEnabledAfter false (dispatchAll engine_with_sensor
      [Dispatch.cmd APP_CMD_GAINED_FOCUS 0 egl_sample, Dispatch.cmd APP_CMD_LOST_FOCUS 0 egl_sample,
       Dispatch.cmd APP_CMD_GAINED_FOCUS 0 egl_sample]).2 = true ↔
      (([Dispatch.cmd APP_CMD_GAINED_FOCUS 0 egl_sample,
          Dispatch.cmd APP_CMD_LOST_FOCUS 0 egl_sample,
          Dispatch.cmd APP_CMD_GAINED_FOCUS 0 egl_sample].getLast?.bind Dispatch.cmdCode
            = some APP_CMD_GAINED_FOCUS) ∧
        engine_with_sensor.accelerometerSensor ≠ NULL) :=
  C5_sensor_enabled_iff_last_gained engine_with_sensor _ (by decide) (by decide)

/-! ## C6: a destroy request ends the loop -/

/-- C6.  In every run of the main loop, let `p` be the first processed event after which
`destroyRequested` is non-zero (`pre` are the poll results before it, `post` whatever would
have followed).  The loop was still running before `p`; after processing `p` it calls
`engine_term_display` and returns: the call list of the whole run is the list up to the exit
check followed by that of the one `engine_term_display` call and nothing else, `post` is never
looked at, the teardown is entered exactly once and `engine_draw_frame` not at all after the
exit check, and the saved state (the angle in particular) is the one at the exit check. -/
theorem C6_destroy_request_stops_loop (e : engine) (pre : List Poll) (p : Polled)
    (post : List Poll) (hpre : ∀ q, Poll.event q ∈ pre → q.destroyRequested = 0)
    (hp : p.destroyRequested ≠ 0) :
    (main_loop e pre).returned = false ∧
    main_loop e (pre ++ Poll.event p :: post) =
      { engine := (engine_term_display (at_exit_check e pre p).1).1
        trace := (main_loop e pre).trace ++
          ((at_exit_check e pre p).2 ++ (engine_term_display (at_exit_check e pre p).1).2)
        returned := true } ∧
    (engine_term_display (at_exit_check e pre p).1).2.count (Ev.enter Fn.engine_term_display)
      = 1 ∧
    Ev.enter Fn.engine_draw_frame ∉ (engine_term_display (at_exit_check e pre p).1).2 ∧
    (main_loop e (pre ++ Poll.event p :: post)).engine.state = (at_exit_check e pre p).1.state := by
  obtain ⟨h1, h2⟩ := main_loop_until_destroy pre e p post hpre hp
  obtain ⟨h3, h4⟩ := engine_term_display_trace (at_exit_check e pre p).1
  refine ⟨h1, h2, h3, h4, ?_⟩
  rw [h2]
  rfl

/-- Witness for `C6_destroy_request_stops_loop`: a motion event sets `animating`, one frame
is animated, then a destroy request arrives; what follows it is ignored. -/
theorem C6_destroy_request_stops_loop_witness :
    (main_loop engine_with_sensor [Poll.event poll_motion, Poll.none]).returned = false ∧
    (main_loop engine_with_sensor
      ([Poll.event poll_motion, Poll.none] ++ Poll.event poll_destroy :: [Poll.none])).returned
        = true ∧
    (main_loop engine_with_sensor
      ([Poll.event poll_motion, Poll.none] ++ Poll.event poll_destroy :: [Poll.none])).trace
        = [Ev.enter Fn.engine_draw_frame, Ev.enter Fn.engine_term_display] :=
  have h := C6_destroy_request_stops_loop engine_with_sensor [Poll.event poll_motion, Poll.none]
    poll_destroy [Poll.none]
    (by intro q hq
        simp only [List.mem_cons, Poll.event.injEq, List.mem_singleton, reduceCtorEq,
          List.not_mem_nil, or_false] at hq
        rw [hq]; rfl)
    (by decide)
  ⟨h.1, by rw [h.2.1], by rw [h.2.1]; rfl⟩

/-! ## C7: drawing without a display -/

/-- C7.  For every engine state whose `display` is null, `engine_draw_frame` returns the
engine unchanged and its call list holds nothing but the marker of its own entry: no
`glClearColor`, no `glClear`, no `eglSwapBuffers`, and no warning is logged. -/
theorem C7_draw_without_display_is_noop (e : engine) (h : e.display = NULL) :
    (engine_draw_frame e).1 = e ∧
    (engine_draw_frame e).2 = [Ev.enter Fn.engine_draw_frame] ∧
    Ev.glClear ∉ (engine_draw_frame e).2 ∧
    (∀ d s, Ev.eglSwapBuffers d s ∉ (engine_draw_frame e).2) ∧
    (∀ x w a y t, Ev.glClearColor x w a y t ∉ (engine_draw_frame e).2) ∧
    Ev.logW_unableToMakeCurrent ∉ (engine_draw_frame e).2 := by
  have ht : (engine_draw_frame e).2 = [Ev.enter Fn.engine_draw_frame] := by
    unfold engine_draw_frame
    rw [if_pos h]
  refine ⟨engine_draw_frame_fst e, ht, ?_, ?_, ?_, ?_⟩ <;> simp [ht]

/-- Witness for `C7_draw_without_display_is_noop`: the sample engine has no display. -/
theorem C7_draw_without_display_is_noop_witness :
    engine_sample.display = NULL ∧
    (engine_draw_frame engine_sample).1 = engine_sample ∧
    (engine_draw_frame engine_sample).2 = [Ev.enter Fn.engine_draw_frame] :=
  ⟨rfl, (C7_draw_without_display_is_noop engine_sample rfl).1,
    (C7_draw_without_display_is_noop engine_sample rfl).2.1⟩

/-! ## C8: the three handles -/

/-- C8, as stated, fails on the code.  From the booted engine, a window-attach command whose
EGL set-up returns a display but neither a surface nor a context, and whose `eglMakeCurrent`
succeeds, leaves `display` present and `surface`, `context` absent. -/
theorem C8_handles_mixed_after_init :
    (reach (engine_boot ⟨0, Option.none, 0, 0⟩ 0 0 0)
      [Action.deliver (Dispatch.cmd APP_CMD_INIT_WINDOW 9 egl_no_surface)]).display = 1 ∧
    (reach (engine_boot ⟨0, Option.none, 0, 0⟩ 0 0 0)
      [Action.deliver (Dispatch.cmd APP_CMD_INIT_WINDOW 9 egl_no_surface)]).surface
        = EGL_NO_SURFACE ∧
    (reach (engine_boot ⟨0, Option.none, 0, 0⟩ 0 0 0)
      [Action.deliver (Dispatch.cmd APP_CMD_INIT_WINDOW 9 egl_no_surface)]).context
        = EGL_NO_CONTEXT ∧
    ¬ (handlesAbsent (reach (engine_boot ⟨0, Option.none, 0, 0⟩ 0 0 0)
          [Action.deliver (Dispatch.cmd APP_CMD_INIT_WINDOW 9 egl_no_surface)]) ∨
       handlesPresent (reach (engine_boot ⟨0, Option.none, 0, 0⟩ 0 0 0)
          [Action.deliver (Dispatch.cmd APP_CMD_INIT_WINDOW 9 egl_no_surface)])) := by
  have hd : (reach (engine_boot ⟨0, Option.none, 0, 0⟩ 0 0 0)
      [Action.deliver (Dispatch.cmd APP_CMD_INIT_WINDOW 9 egl_no_surface)]).display = 1 := by
    decide
  have hs : (reach (engine_boot ⟨0, Option.none, 0, 0⟩ 0 0 0)
      [Action.deliver (Dispatch.cmd APP_CMD_INIT_WINDOW 9 egl_no_surface)]).surface
        = EGL_NO_SURFACE := by
    decide
  have hc : (reach (engine_boot ⟨0, Option.none, 0, 0⟩ 0 0 0)
      [Action.deliver (Dispatch.cmd APP_CMD_INIT_WINDOW 9 egl_no_surface)]).context
        = EGL_NO_CONTEXT := by
    decide
  refine ⟨hd, hs, hc, ?_⟩
  rintro (⟨h, _, _⟩ | ⟨_, h, _⟩)
  · rw [hd] at h
    exact absurd h (by decide)
  · exact h hs

/-- C8, amended.  `engine_init_display` stores the display, surface and context that EGL
returned, all three together, when `eglMakeCurrent` succeeds, and leaves the engine untouched
when it fails; `engine_term_display` sets the three to their absent values.  Hence, if every
successful EGL set-up along the way returned three present handles, in every state reached
from the booted engine the three handles are all absent or all present. -/
theorem C8_handles_all_or_none (state : android_app) (manager sensor queue : Handle)
    (acts : List Action) (h : ∀ a ∈ acts, a.allPresentOnSuccess = true) :
    (handlesAbsent (reach (engine_boot state manager sensor queue) acts) ∨
      handlesPresent (reach (engine_boot state manager sensor queue) acts)) ∧
    (∀ (g : EGLResult) (e : engine), g.makeCurrent = true →
      (engine_init_display g e).1 = 0 ∧
      (engine_init_display g e).2.1.display = g.display ∧
      (engine_init_display g e).2.1.surface = g.surface ∧
      (engine_init_display g e).2.1.context = g.context) ∧
    (∀ (g : EGLResult) (e : engine), g.makeCurrent = false →
      (engine_init_display g e).1 = -1 ∧ (engine_init_display g e).2.1 = e) ∧
    (∀ e : engine, handlesAbsent (engine_term_display e).1) :=
  ⟨reach_handles acts _ h (Or.inl ⟨rfl, rfl, rfl⟩),
   fun g e => (engine_init_display_handles g e).1,
   fun g e => (engine_init_display_handles g e).2,
   fun _ => ⟨rfl, rfl, rfl⟩⟩

/-- Witness for `C8_handles_all_or_none`: attach a window with a fully successful EGL set-up,
touch the screen, animate a frame, detach the window. -/
theorem C8_handles_all_or_none_witness :
    (∀ a ∈ [Action.deliver (Dispatch.cmd APP_CMD_INIT_WINDOW 9 egl_sample),
            Action.deliver (Dispatch.input ⟨AINPUT_EVENT_TYPE_MOTION, 10, 20⟩), Action.frame,
            Action.deliver (Dispatch.cmd APP_CMD_TERM_WINDOW 9 egl_sample)],
        a.allPresentOnSuccess = true) ∧
    (handlesAbsent (reach (engine_boot ⟨0, Option.none, 0, 0⟩ 0 0 0)
        [Action.deliver (Dispatch.cmd APP_CMD_INIT_WINDOW 9 egl_sample),
         Action.deliver (Dispatch.input ⟨AINPUT_EVENT_TYPE_MOTION, 10, 20⟩), Action.frame,
         Action.deliver (Dispatch.cmd APP_CMD_TERM_WINDOW 9 egl_sample)]) ∨
      handlesPresent (reach (engine_boot ⟨0, Option.none, 0, 0⟩ 0 0 0)
        [Action.deliver (Dispatch.cmd APP_CMD_INIT_WINDOW 9 egl_sample),
         Action.deliver (Dispatch.input ⟨AINPUT_EVENT_TYPE_MOTION, 10, 20⟩), Action.frame,
         Action.deliver (Dispatch.cmd APP_CMD_TERM_WINDOW 9 egl_sample)])) :=
  ⟨by decide, (C8_handles_all_or_none ⟨0, Option.none, 0, 0⟩ 0 0 0 _ (by decide)).1⟩

/-! ## C9: the requested sensor event period -/

/-- C9 (what the code does).  On `APP_CMD_GAINED_FOCUS` with a sensor available the handler
enables the sensor and requests an event period of `(1000/60)*1000 = 16000` microseconds,
which is neither 16666 nor 16667: the integer division is taken before the scaling. -/
theorem C9_event_period_is_16000 :
    (engine_handle_cmd egl_sample engine_with_sensor APP_CMD_GAINED_FOCUS).2 =
      [Ev.enableSensor 7 5, Ev.setEventRate 7 5 16000] ∧
    eventRateUsec = 16000 ∧ eventRateUsec ≠ 16666 ∧ eventRateUsec ≠ 16667 ∧
    (1000 * 1000 : Int) / 60 = 16666 := by
  refine ⟨by decide, by decide, by decide, by decide, by decide⟩

/-! ## C10: failures during start-up -/

/-- C10, as stated, fails on the code.  When the first reflective lookup leaves a pending
exception, `EXCEPTION_RETURN` returns from `android_main`: the run ends before the event
loop, whatever the poll source would have delivered. -/
theorem C10_jni_failure_leaves_android_main :
    android_main env_findClassFails ⟨0, Option.none, 0, 0⟩ [Poll.none] =
      Outcome.returnedBeforeLoop [StartLog.exceptionDescribeAndClear 272] ∧
    (android_main env_findClassFails ⟨0, Option.none, 0, 0⟩ [Poll.none]).entersLoop = false := by
  constructor <;> rfl

/-- C10, amended.  `android_main` reaches its event loop exactly when no `EXCEPTION_RETURN`
check of the start-up sequence finds a pending exception.  So a failing `fopen` (for write or
for read) never keeps it from the loop, while a reflective lookup or call that leaves a
pending exception makes `android_main` return before the loop. -/
theorem C10_enters_loop_iff_no_exception (env : StartEnv) (state : android_app)
    (polls : List Poll) :
    (android_main env state polls).entersLoop = true ↔
      ∀ line ∈ exceptionLines startup_steps, env.exceptionPending line = false := by
  rw [← run_startup_completes_iff]
  unfold android_main
  by_cases h : (run_startup env startup_steps).1 = true
  · simp [h, Outcome.entersLoop]
  · simp [h, Outcome.entersLoop]

/-! ## C11: animating and the window -/

/-- C11, as stated, fails on the code.  A motion event delivered to the booted engine before
any window-attach sets `animating` to 1 while the three handles are absent; so does a motion
event that follows a window-attach whose `eglMakeCurrent` failed. -/
theorem C11_animating_without_window :
    (reach (engine_boot ⟨0, Option.none, 0, 0⟩ 0 0 0)
      [Action.deliver (Dispatch.input motion_sample)]).animating = 1 ∧
    handlesAbsent (reach (engine_boot ⟨0, Option.none, 0, 0⟩ 0 0 0)
      [Action.deliver (Dispatch.input motion_sample)]) ∧
    ¬ ((reach (engine_boot ⟨0, Option.none, 0, 0⟩ 0 0 0)
          [Action.deliver (Dispatch.input motion_sample)]).animating ≠ 0 →
        handlesPresent (reach (engine_boot ⟨0, Option.none, 0, 0⟩ 0 0 0)
          [Action.deliver (Dispatch.input motion_sample)])) ∧
    (reach (engine_boot ⟨0, Option.none, 0, 0⟩ 0 0 0)
      [Action.deliver (Dispatch.cmd APP_CMD_INIT_WINDOW 9 egl_makeCurrent_fails),
       Action.deliver (Dispatch.input motion_sample)]).animating = 1 ∧
    handlesAbsent (reach (engine_boot ⟨0, Option.none, 0, 0⟩ 0 0 0)
      [Action.deliver (Dispatch.cmd APP_CMD_INIT_WINDOW 9 egl_makeCurrent_fails),
       Action.deliver (Dispatch.input motion_sample)]) := by
  have ha : (reach (engine_boot ⟨0, Option.none, 0, 0⟩ 0 0 0)
      [Action.deliver (Dispatch.input motion_sample)]).animating = 1 := by decide
  have hd : (reach (engine_boot ⟨0, Option.none, 0, 0⟩ 0 0 0)
      [Action.deliver (Dispatch.input motion_sample)]).display = EGL_NO_DISPLAY := by decide
  refine ⟨ha, ⟨hd, by decide, by decide⟩, ?_, by decide, ⟨by decide, by decide, by decide⟩⟩
  intro h
  have hp := h (by rw [ha]; decide)
  exact hp.1 hd

/-- C11, amended.  `engine_handle_input` sets `animating` to 1 on every motion event without
looking at the handles, which it leaves as they are.  Hence `animating != 0` implies that the
display, surface and context handles are present in every state reached from the booted engine
by a sequence in which each motion event is delivered while the three handles are present and
each successful EGL set-up returned three present handles. -/
theorem C11_animating_implies_handles_if_motion_has_window (state : android_app)
    (manager sensor queue : Handle) (acts : List Action)
    (hg : ∀ a ∈ acts, a.allPresentOnSuccess = true)
    (hm : motionOnlyWithHandles (engine_boot state manager sensor queue) acts = true) :
    ((reach (engine_boot state manager sensor queue) acts).animating ≠ 0 →
      handlesPresent (reach (engine_boot state manager sensor queue) acts)) ∧
    (∀ (e : engine) (ev : AInputEvent), ev.type = AINPUT_EVENT_TYPE_MOTION →
      (engine_handle_input e ev).2.animating = 1 ∧
      (engine_handle_input e ev).2.display = e.display ∧
      (engine_handle_input e ev).2.surface = e.surface ∧
      (engine_handle_input e ev).2.context = e.context) :=
  ⟨reach_animating_handles acts _ (fun h => absurd rfl h) hg hm,
   fun e ev h => engine_handle_input_motion e ev h⟩

/-- Witness for `C11_animating_implies_handles_if_motion_has_window`: attach a window with a
fully successful EGL set-up, then touch the screen and animate a frame. -/
theorem C11_animating_implies_handles_if_motion_has_window_witness :
    (∀ a ∈ [Action.deliver (Dispatch.cmd APP_CMD_INIT_WINDOW 9 egl_sample),
            Action.deliver (Dispatch.input motion_sample), Action.frame],
        a.allPresentOnSuccess = true) ∧
    motionOnlyWithHandles (engine_boot ⟨0, Option.none, 0, 0⟩ 0 0 0)
      [Action.deliver (Dispatch.cmd APP_CMD_INIT_WINDOW 9 egl_sample),
       Action.deliver (Dispatch.input motion_sample), Action.frame] = true ∧
    (reach (engine_boot ⟨0, Option.none, 0, 0⟩ 0 0 0)
      [Action.deliver (Dispatch.cmd APP_CMD_INIT_WINDOW 9 egl_sample),
       Action.deliver (Dispatch.input motion_sample), Action.frame]).animating ≠ 0 ∧
    handlesPresent (reach (engine_boot ⟨0, Option.none, 0, 0⟩ 0 0 0)
      [Action.deliver (Dispatch.cmd APP_CMD_INIT_WINDOW 9 egl_sample),
       Action.deliver (Dispatch.input motion_sample), Action.frame]) :=
  ⟨by decide, by decide, by decide,
   (C11_animating_implies_handles_if_motion_has_window ⟨0, Option.none, 0, 0⟩ 0 0 0 _
      (by decide) (by decide)).1 (by decide)⟩

end NativeActivity
